import Mathlib

/-!
The Nomad websocket hub of hashi-ui (`backend/nomad_hub.go`)

A shallow embedding of `NomadHub` (constructor, run loop, HTTP handler and the
region-selection handshake) together with the properties of the hub that the
specification states.

Conventions of the embedding:

* Go pointers are addresses (`Nat`); what they point to lives in an explicit
  `Memory` (for the cluster's region registries) or in the `RunState` (for the
  `send` channel of every `Connection`).
* Go strings are byte strings; they are modelled by Lean strings. The string
  functions the hub calls only compare with, and cut at, occurrences of the route
  `/ws/nomad/`, which reads the same on bytes and on characters.
* A goroutine that blocks on a socket read is executed with fuel: the functions
  return the state reached together with a flag telling whether they returned.
-/

namespace HashiUI

/-! ## Go maps with string keys -/

/-- A Go `map[string]V`. The entries are listed in the order in which a `range`
loop over the map visits them; Go leaves that order unspecified, and every
statement below holds for all orders. A key occurs at most once. -/
structure GoMap (V : Type) where
  entries : List (String × V)
  nodup : (entries.map Prod.fst).Nodup

/-- The value of `make(map[string]V)`. -/
def GoMap.empty {V : Type} : GoMap V := ⟨[], List.nodup_nil⟩

/-- The keys in the order a `for k := range m` loop yields them. -/
def GoMap.keys {V : Type} (m : GoMap V) : List String := m.entries.map Prod.fst

/-- The comma-ok index expression `v, ok := m[k]`; `none` stands for `ok == false`. -/
def GoMap.get? {V : Type} (m : GoMap V) (k : String) : Option V :=
  (m.entries.find? (fun e => decide (e.1 = k))).map Prod.snd

/-- The assignment `m[k] = v`. -/
def GoMap.set {V : Type} (m : GoMap V) (k : String) (v : V) : GoMap V where
  entries := m.entries.filter (fun e => decide (e.1 ≠ k)) ++ [(k, v)]
  nodup := by
    rw [List.map_append, List.nodup_append]
    refine ⟨?_, by simp, ?_⟩
    · exact m.nodup.sublist ((List.filter_sublist _).map Prod.fst)
    · intro a ha hb
      simp only [List.map_cons, List.map_nil, List.mem_singleton] at hb
      subst hb
      simp only [List.mem_map, List.mem_filter, decide_eq_true_eq] at ha
      obtain ⟨e, ⟨_, hne⟩, he⟩ := ha
      exact hne he

/-! ## The data model -/

/-- A `*Connection`: the identity of one allocated connection object. The hub only
ever receives handles of connections that exist, so `nil` is not a handle. -/
abbrev Handle := Nat

/-- An address of a heap object (`*NomadRegionChannels`, `*NomadRegionClients`). -/
abbrev Addr := Nat

/-- The value type of `NomadRegionChannels`: the broadcast channels of one region. -/
abbrev RegionChannel := Nat

/-- The value type of `NomadRegionClients`: the Nomad API client of one region. -/
abbrev RegionClient := Nat

/-- The two fields of `NomadCluster` that the hub reads; both are pointers to maps
keyed by region name. -/
structure NomadCluster where
  RegionClients : Addr
  RegionChannels : Addr

/-- The heap objects the hub points into: the maps behind `*NomadRegionChannels`
and `*NomadRegionClients`. They belong to the cluster, not to the hub. -/
structure Memory where
  regionChannels : Addr → GoMap RegionChannel
  regionClients : Addr → GoMap RegionClient

/-- The struct `NomadHub`. `connections` is a `map[*Connection]bool` that is only
indexed, assigned and deleted from, never enumerated: a finite map from handles.
The command channels `register` and `unregister` are represented by the sequence
of commands that `Run` receives. -/
structure NomadHub where
  connections : Handle → Option Bool
  cluster : NomadCluster
  channels : Addr
  clients : Addr
  regions : List String

/-- The constructor `NewNomadHub`: enumerate the region names of `*cluster.RegionChannels` into
`regions`, keep the two registry pointers, start with an empty `connections`. -/
def NewNomadHub (mem : Memory) (cluster : NomadCluster) : NomadHub where
  cluster := cluster
  clients := cluster.RegionClients
  channels := cluster.RegionChannels
  regions := (mem.regionChannels cluster.RegionChannels).keys
  connections := fun _ => none

/-! ## The run loop -/

/-- What the `select` of `Run` receives: a handle on `h.register` or on
`h.unregister`. -/
inductive Command where
  | register (c : Handle)
  | unregister (c : Handle)
deriving DecidableEq, Repr

/-- The state `Run` works on: the hub, and for every connection whether its
`send` channel has been closed. `closeCalls` records every `close(c.send)` that
`Run` executed, oldest first; `panicked` records that one of them hit a channel
that was already closed (Go: `panic: close of closed channel`). -/
structure RunState where
  hub : NomadHub
  sendClosed : Handle → Bool
  closeCalls : List Handle
  panicked : Bool

/-- The Go builtin `close(c.send)`: closing a closed channel panics. The channel is
the one `NewConnection` made, so it is not `nil`. -/
def closeSend (s : RunState) (c : Handle) : RunState :=
  { s with
    sendClosed := fun d => if d = c then true else s.sendClosed d
    closeCalls := s.closeCalls ++ [c]
    panicked := s.panicked || s.sendClosed c }

/-- One pass through the body of the `for` loop of `Run` on the received command.
`close` is the last statement of its branch, so the state at a panic is the state
this function returns. -/
def Run.body (s : RunState) : Command → RunState
  | .register c =>
    { s with hub := { s.hub with connections := fun d => if d = c then some true else s.hub.connections d } }
  | .unregister c =>
    match s.hub.connections c with
    | some _ =>
      closeSend
        { s with hub := { s.hub with connections := fun d => if d = c then none else s.hub.connections d } } c
    | none => s

/-- The loop of `Run` over the commands it receives, in the order of reception.
`Run` itself never returns; this is the state after the body has run on each of
the given commands. A panic ends the real loop, so the commands a real run has
processed form a sequence with at most its last command panicking; the flag
`panicked` tells whether that happened. -/
def Run (s : RunState) (cmds : List Command) : RunState :=
  cmds.foldl Run.body s

/-- The run state around a fresh hub: no `send` channel closed yet. -/
def RunState.fresh (h : NomadHub) : RunState :=
  { hub := h, sendClosed := fun _ => false, closeCalls := [], panicked := false }

/-- The subsequence whose presence makes `Run` close the queue of `c` twice. -/
def reRegistered (c : Handle) : List Command :=
  [.register c, .unregister c, .register c, .unregister c]

/-- The bookkeeping of `closeSend` is consistent: a queue is closed exactly when a
close call for it was made, and the run has panicked exactly when some queue was
the subject of two close calls. -/
def RunState.Consistent (s : RunState) : Prop :=
  (∀ c, s.sendClosed c = true ↔ c ∈ s.closeCalls) ∧
  (s.panicked = true ↔ ¬ s.closeCalls.Nodup)

/-! ## Actions, sockets and what a request handler does -/

/-- The values stored in `Payload interface{}` by this file: a string or a
`[]string`. -/
inductive Payload where
  | str (s : String)
  | list (l : List String)
deriving DecidableEq, Repr

/-- The envelope `Action{Type, Payload}` (the fields are written in lower case
because `Type` is reserved). -/
structure Action where
  type : String
  payload : Payload
deriving DecidableEq, Repr

/-- The behaviour of one upgraded `*websocket.Conn`: `readJSON i` is the outcome
of its `i`-th call of `ReadJSON(&readAction)` (the error, or the value the
variable `readAction` holds afterwards) and `writeJSON i` the error returned by
its `i`-th call of `WriteJSON`, `none` for `nil`. Calls are counted from 0. -/
structure Socket where
  readJSON : Nat → Except String Action
  writeJSON : Nat → Option String

/-- Modelled from the spec: the `Connection` built by `NewConnection`, which is
not part of this file: it is "constructed with (hub handle, upgraded socket,
region client metadata, region event channel)". `client` is `none` when
`(*h.clients)[region]` yields the zero value. The hub handle carries no data. -/
structure Connection where
  socket : Socket
  client : Option RegionClient
  channel : RegionChannel

/-- Modelled from the spec: `NewConnection(h, socket, client, channels)`, which is
not part of this file; it only builds the `Connection`. -/
def NewConnection (_h : NomadHub) (socket : Socket) (client : Option RegionClient)
    (channel : RegionChannel) : Connection :=
  { socket := socket, client := client, channel := channel }

/-- What a handler does to the outside, in order: log lines, socket calls with
their outcome, the construction of a `Connection` and the call of its `Handle`. -/
inductive Event where
  | errorf (msg : String)
  | warningf (msg : String)
  | debugf (msg : String)
  | writeJSON (action : Action) (err : Option String)
  | readJSON (res : Except String Action)
  | newConnection (c : Connection)
  | handle (c : Connection)

/-- The state threaded through `Handler`: the hub behind the receiver `h`, how
many reads and writes the socket has served, and the events so far. -/
structure HandlerState where
  hub : NomadHub
  reads : Nat
  writes : Nat
  trace : List Event

/-- The method `sendAction`: one `WriteJSON`, whose error is logged. -/
def sendAction (socket : Socket) (s : HandlerState) (action : Action) : HandlerState :=
  match socket.writeJSON s.writes with
  | some err =>
    { s with
      writes := s.writes + 1
      trace := s.trace ++ [.writeJSON action (some err), .errorf (" " ++ err)] }
  | none => { s with writes := s.writes + 1, trace := s.trace ++ [.writeJSON action none] }

/-- Lines 95-113 of `requireNomadRegion`: enumerate `*h.channels` and choose the
action. -/
def requireNomadRegion.action (mem : Memory) (h : NomadHub) : Action :=
  let regions := (mem.regionChannels h.channels).keys
  if hlen : regions.length = 1 then
    { type := "SET_NOMAD_REGION", payload := .str (regions.get ⟨0, by omega⟩) }
  else
    { type := "FETCHED_NOMAD_REGIONS", payload := .list regions }

/-- The `for` loop of `requireNomadRegion`, one read per unit of fuel. The flag is
`true` when the loop was left by `break`, `false` when the fuel ran out. -/
def requireNomadRegion.loop (socket : Socket) (action : Action) :
    Nat → HandlerState → HandlerState × Bool
  | 0, s => (s, false)
  | fuel + 1, s =>
    match socket.readJSON s.reads with
    | .error err =>
      ({ s with reads := s.reads + 1, trace := s.trace ++ [.readJSON (.error err)] }, true)
    | .ok readAction =>
      let s1 : HandlerState :=
        { s with
          reads := s.reads + 1
          trace := s.trace ++
            [.readJSON (.ok readAction),
             .warningf ("Ignoring unhandled message: " ++ readAction.type ++ " (missing region)"),
             .debugf "Sending request for user to select a region in the UI again"] }
      match socket.writeJSON s1.writes with
      | some err =>
        requireNomadRegion.loop socket action fuel
          { s1 with
            writes := s1.writes + 1
            trace := s1.trace ++ [.writeJSON action (some err), .errorf (" " ++ err)] }
      | none =>
        requireNomadRegion.loop socket action fuel
          { s1 with writes := s1.writes + 1, trace := s1.trace ++ [.writeJSON action none] }

/-- The method `requireNomadRegion`: compute the action, send it, then answer every message
read from the socket with the same action until a read fails. -/
def requireNomadRegion (mem : Memory) (socket : Socket) (fuel : Nat) (s : HandlerState) :
    HandlerState × Bool :=
  let action := requireNomadRegion.action mem s.hub
  requireNomadRegion.loop socket action fuel (sendAction socket s action)

/-! ## Strings -/

/-- Go `strings.HasPrefix(s, pre)`: `len(s) >= len(pre) && s[:len(pre)] == pre`. -/
def HasPrefix (s pre : String) : Bool :=
  decide (pre.data.length ≤ s.data.length) && decide (s.data.take pre.data.length = pre.data)

/-- Go `strings.Index(s, sub)`: the position of the first occurrence of `sub` in `s`,
`none` for -1. -/
def Index (sub : List Char) : List Char → Option Nat
  | [] => if sub = [] then some 0 else none
  | c :: cs =>
    if (c :: cs).take sub.length = sub then some 0 else (Index sub cs).map (· + 1)

/-- The replacement loop of `strings.Replace` for a non-empty `old`: replace the
first `n` non-overlapping occurrences, left to right. -/
def Replace.first (old new : List Char) : Nat → List Char → List Char
  | 0, s => s
  | n + 1, s =>
    match Index old s with
    | none => s
    | some j => s.take j ++ new ++ Replace.first old new n (s.drop (j + old.length))

/-- The replacement loop of `strings.Replace` for an empty `old`, which matches
before every character: `new` is put after each of the first `n` characters. -/
def Replace.between (new : List Char) : Nat → List Char → List Char
  | 0, s => s
  | _ + 1, [] => []
  | n + 1, c :: cs => c :: (new ++ Replace.between new n cs)

/-- Go `strings.Replace(s, old, new, n)`: the first `n` non-overlapping occurrences of
`old` replaced by `new`, all of them when `n < 0`. -/
def Replace (s old new : String) (n : Int) : String :=
  if old = new ∨ n = 0 then s
  else
    let limit : Nat := if n < 0 then s.data.length + 1 else n.toNat
    if old = "" then ⟨new.data ++ Replace.between new.data (limit - 1) s.data⟩
    else ⟨Replace.first old.data new.data limit s.data⟩

/-! ## The HTTP handler -/

/-- An upgrade request as far as `Handler` looks at it: `r.URL.Path`, and what
`upgrader.Upgrade(w, r, nil)` returns for it. -/
structure Request where
  path : String
  upgrade : Except String Socket

/-- Lines 73-76 of `Handler`: the region named by the request path. -/
def Handler.region (path : String) : String :=
  if HasPrefix path "/ws/nomad/" then Replace path "/ws/nomad/" "" 1 else ""

/-- The method `Handler`. `unknownNomadRegion` is a constant declared in another file of the
package. The result is the state reached and whether `Handler` has returned (up
to and including the call of `c.Handle()`, whose effects belong to the
connection). -/
def Handler (unknownNomadRegion : String) (mem : Memory) (h : NomadHub) (r : Request)
    (fuel : Nat) : HandlerState × Bool :=
  match r.upgrade with
  | .error err =>
    ({ hub := h, reads := 0, writes := 0,
       trace := [.errorf ("transport: websocket upgrade failed: " ++ err)] }, true)
  | .ok socket =>
    let region := Handler.region r.path
    if region = "" then
      requireNomadRegion mem socket fuel
        { hub := h, reads := 0, writes := 0, trace := [.errorf "No region provided"] }
    else
      match (mem.regionChannels h.channels).get? region with
      | none =>
        (sendAction socket
          { hub := h, reads := 0, writes := 0,
            trace := [.errorf ("region was not found: " ++ region)] }
          { type := unknownNomadRegion, payload := .str "" }, true)
      | some channel =>
        let c := NewConnection h socket ((mem.regionClients h.clients).get? region) channel
        ({ hub := h, reads := 0, writes := 0, trace := [.newConnection c, .handle c] }, true)

/-! ## Reading a trace -/

/-- The envelope of a `WriteJSON` event. -/
def Event.written : Event → Option Action
  | .writeJSON action _ => some action
  | _ => none

/-- The envelopes handed to `WriteJSON`, in order, whether or not the write
succeeded. -/
def writesOf (trace : List Event) : List Action := trace.filterMap Event.written

/-- The connection of a `NewConnection` event. -/
def Event.built : Event → Option Connection
  | .newConnection c => some c
  | _ => none

/-- The connections constructed, in order. -/
def connectionsBuilt (trace : List Event) : List Connection := trace.filterMap Event.built

/-- The region names an action carries: the one region of a string payload, or the
listed regions. -/
def Payload.regions : Payload → List String
  | .str r => [r]
  | .list l => l

/-! ## Concrete registries, sockets and requests used in the examples -/

/-- A cluster whose region channel registry lives at address 0 and whose client
registry lives at address 1. -/
def Example.cluster : NomadCluster := { RegionClients := 1, RegionChannels := 0 }

/-- A memory in which every registry holds the given region channels and no
clients. -/
def Example.memory (channels : GoMap RegionChannel) : Memory :=
  { regionChannels := fun _ => channels, regionClients := fun _ => GoMap.empty }

/-- A socket whose first `n` reads deliver a `PING` action, whose later reads fail,
and whose writes all fail. -/
def Example.socket (n : Nat) : Socket :=
  { readJSON := fun i => if i < n then .ok ⟨"PING", .str ""⟩ else .error "EOF"
    writeJSON := fun _ => some "broken pipe" }

/-- A hub state in which connection 7 is registered and its queue is open. -/
def Example.registered : RunState :=
  Run (RunState.fresh (NewNomadHub (Example.memory GoMap.empty) Example.cluster))
    [Command.register 7]

/-! ## The run loop: the connection set -/

theorem Run_nil (s : RunState) : Run s [] = s := rfl

theorem Run_cons (s : RunState) (x : Command) (xs : List Command) :
    Run s (x :: xs) = Run (Run.body s x) xs := rfl

/-- The effect of one command on the membership of `c`. -/
theorem body_connections (s : RunState) (x : Command) (c : Handle) :
    (Run.body s x).hub.connections c =
      match x with
      | .register d => if c = d then some true else s.hub.connections c
      | .unregister d => if c = d then none else s.hub.connections c := by
  cases x with
  | register d => rfl
  | unregister d =>
    simp only [Run.body]
    cases hd : s.hub.connections d with
    | none =>
      by_cases hcd : c = d
      · simp [hcd, hd]
      · simp [hcd]
    | some b => simp [closeSend]

/-- An unregister command for a handle that is not registered changes nothing. -/
theorem body_unregister_absent (s : RunState) (c : Handle)
    (h : s.hub.connections c = none) : Run.body s (.unregister c) = s := by
  simp [Run.body, h]

/-- Any number of unregister commands for a handle that is not registered change
nothing. -/
theorem Run_unregister_absent (s : RunState) (c : Handle) (k : Nat)
    (h : s.hub.connections c = none) :
    Run s (List.replicate k (.unregister c)) = s := by
  induction k with
  | zero => rfl
  | succ k ih => rw [List.replicate_succ, Run_cons, body_unregister_absent s c h, ih]

/-- Splitting off the first command in "a register of `c` with no unregister of
`c` after it". -/
theorem live_cons (x : Command) (xs : List Command) (c : Handle) :
    (∃ pre post, x :: xs = pre ++ Command.register c :: post ∧ Command.unregister c ∉ post) ↔
      (x = Command.register c ∧ Command.unregister c ∉ xs) ∨
      (∃ pre post, xs = pre ++ Command.register c :: post ∧ Command.unregister c ∉ post) := by
  constructor
  · rintro ⟨pre, post, h, hn⟩
    cases pre with
    | nil =>
      simp only [List.nil_append, List.cons.injEq] at h
      exact Or.inl ⟨h.1, h.2 ▸ hn⟩
    | cons y ys =>
      simp only [List.cons_append, List.cons.injEq] at h
      exact Or.inr ⟨ys, post, h.2, hn⟩
  · rintro (⟨hx, hn⟩ | ⟨pre, post, h, hn⟩)
    · exact ⟨[], xs, by simp [hx], hn⟩
    · exact ⟨x :: pre, post, by simp [h], hn⟩

/-- Membership after a run from any state: `c` is registered afterwards exactly
when the commands hold a register of `c` with no later unregister of `c`, or `c`
was registered before and no command unregisters it. -/
theorem Run_connections (cmds : List Command) (c : Handle) :
    ∀ s : RunState, ((Run s cmds).hub.connections c).isSome = true ↔
      (∃ pre post, cmds = pre ++ Command.register c :: post ∧ Command.unregister c ∉ post) ∨
      ((s.hub.connections c).isSome = true ∧ Command.unregister c ∉ cmds) := by
  induction cmds with
  | nil => intro s; simp [Run_nil]
  | cons x xs ih =>
    intro s
    rw [Run_cons, ih, live_cons, body_connections]
    generalize (∃ pre post, xs = pre ++ Command.register c :: post ∧
      Command.unregister c ∉ post) = E
    cases x with
    | register d =>
      by_cases hcd : c = d
      · subst hcd
        simp only [if_true, Option.isSome_some, true_and, List.mem_cons, not_or]
        have : Command.unregister c ≠ Command.register c := by simp
        tauto
      · have hdc : Command.register d ≠ Command.register c := by
          simpa using fun h => hcd h.symm
        simp only [hcd, if_false, List.mem_cons, not_or]
        have : Command.unregister c ≠ Command.register d := by simp
        tauto
    | unregister d =>
      by_cases hcd : c = d
      · subst hcd
        simp
      · have hdc : Command.unregister c ≠ Command.unregister d := by simpa using hcd
        simp only [hcd, if_false, List.mem_cons, not_or]
        have : Command.unregister d ≠ Command.register c := by simp
        tauto

/-! ## The run loop: closing the outbound queues -/

/-- The `close(c.send)` calls one command adds. -/
theorem body_closeCalls (s : RunState) (x : Command) :
    (Run.body s x).closeCalls =
      match x with
      | .register _ => s.closeCalls
      | .unregister d =>
        if (s.hub.connections d).isSome = true then s.closeCalls ++ [d] else s.closeCalls := by
  cases x with
  | register d => rfl
  | unregister d =>
    simp only [Run.body]
    cases hd : s.hub.connections d <;> simp [closeSend]

/-- A pattern whose first command differs from the first command of the run is
found in the rest of the run. -/
theorem sublist_cons_of_ne {a x : Command} {l xs : List Command} (h : a ≠ x) :
    (a :: l).Sublist (x :: xs) ↔ (a :: l).Sublist xs := by
  rw [List.cons_sublist_cons']
  constructor
  · rintro (h1 | ⟨h1, _⟩)
    · exact h1
    · exact absurd h1 h
  · exact Or.inl

/-- The number of closes of the queue of `c` after a command for another handle. -/
theorem body_count_other (s : RunState) (x : Command) (c : Handle)
    (hr : x ≠ Command.unregister c) :
    (Run.body s x).closeCalls.count c = s.closeCalls.count c := by
  rw [body_closeCalls]
  cases x with
  | register d => rfl
  | unregister d =>
    have hdc : d ≠ c := fun h => hr (by rw [h])
    simp only
    split
    · rw [List.count_append, List.count_singleton]
      have : (d == c) = false := by simpa using hdc
      simp [this]
    · rfl

/-- How often `Run` closes the queue of `c`, read off the commands: the first
close needs an unregister of `c` while it is registered, the second one a further
register and unregister of `c` after it. -/
theorem Run_closes (c : Handle) (cmds : List Command) : ∀ s : RunState,
    s.closeCalls.count c ≤ (Run s cmds).closeCalls.count c ∧
    (s.hub.connections c = none →
      (s.closeCalls.count c + 1 ≤ (Run s cmds).closeCalls.count c ↔
        [Command.register c, Command.unregister c].Sublist cmds) ∧
      (s.closeCalls.count c + 2 ≤ (Run s cmds).closeCalls.count c ↔
        (reRegistered c).Sublist cmds)) ∧
    ((s.hub.connections c).isSome = true →
      (s.closeCalls.count c + 1 ≤ (Run s cmds).closeCalls.count c ↔
        [Command.unregister c].Sublist cmds) ∧
      (s.closeCalls.count c + 2 ≤ (Run s cmds).closeCalls.count c ↔
        [Command.unregister c, Command.register c, Command.unregister c].Sublist cmds)) := by
  have hur : Command.unregister c ≠ Command.register c := by simp
  have hru : Command.register c ≠ Command.unregister c := by simp
  induction cmds with
  | nil => intro s; simp [Run_nil, reRegistered]
  | cons x xs ih =>
    intro s
    obtain ⟨hmono, hnone, hsome⟩ := ih (Run.body s x)
    have hc := body_connections s x c
    rw [Run_cons]
    simp only [reRegistered] at hnone ⊢
    by_cases hxr : x = Command.register c
    · -- a register of `c`: it is registered afterwards, nothing is closed
      subst hxr
      have hk := body_count_other s (Command.register c) c hru
      simp only [if_true] at hc
      rw [hk] at hmono hsome
      have h1 := hsome (by rw [hc]; rfl)
      refine ⟨hmono, fun _ => ?_, fun _ => ?_⟩
      · rw [List.cons_sublist_cons, List.cons_sublist_cons]
        exact h1
      · rw [sublist_cons_of_ne hur, sublist_cons_of_ne hur]
        exact h1
    · by_cases hxu : x = Command.unregister c
      · subst hxu
        simp only [if_true] at hc
        have h0 := hnone hc
        refine ⟨?_, fun h => ?_, fun h => ?_⟩
        · have hk := body_closeCalls s (Command.unregister c)
          simp only at hk
          rw [hk] at hmono
          split at hmono
          · rw [List.count_append] at hmono; omega
          · exact hmono
        · -- not registered: the command changes nothing
          rw [body_unregister_absent s c h] at h0
          rw [body_unregister_absent s c h]
          rw [sublist_cons_of_ne hru, sublist_cons_of_ne hru]
          exact h0
        · -- registered: this command closes the queue
          have hk : (Run.body s (Command.unregister c)).closeCalls.count c =
              s.closeCalls.count c + 1 := by
            rw [body_closeCalls]
            simp [h, List.count_append]
          rw [hk] at h0 hmono
          rw [List.cons_sublist_cons, List.cons_sublist_cons]
          exact ⟨⟨fun _ => List.nil_sublist _, fun _ => hmono⟩, h0.1⟩
      · -- a command for another handle
        have hk := body_count_other s x c hxu
        have hc2 : (Run.body s x).hub.connections c = s.hub.connections c := by
          rw [hc]
          cases x with
          | register d =>
            have : ¬ c = d := fun h => hxr (by rw [h])
            simp [this]
          | unregister d =>
            have : ¬ c = d := fun h => hxu (by rw [h])
            simp [this]
        rw [hk] at hmono hnone hsome
        rw [hc2] at hnone hsome
        refine ⟨hmono, fun h => ?_, fun h => ?_⟩
        · rw [sublist_cons_of_ne (Ne.symm hxr), sublist_cons_of_ne (Ne.symm hxr)]
          exact hnone h
        · rw [sublist_cons_of_ne (Ne.symm hxu), sublist_cons_of_ne (Ne.symm hxu)]
          exact hsome h

theorem closeSend_consistent (s : RunState) (c : Handle) (h : s.Consistent) :
    (closeSend s c).Consistent := by
  obtain ⟨h1, h2⟩ := h
  constructor
  · intro d
    simp only [closeSend, List.mem_append, List.mem_singleton]
    by_cases hdc : d = c
    · simp [hdc]
    · simp [hdc, h1 d]
  · simp only [closeSend, Bool.or_eq_true, h2, h1 c]
    rw [List.nodup_append_comm, List.singleton_append, List.nodup_cons]
    tauto

theorem body_consistent (s : RunState) (x : Command) (h : s.Consistent) :
    (Run.body s x).Consistent := by
  cases x with
  | register d => exact h
  | unregister d =>
    simp only [Run.body]
    cases s.hub.connections d with
    | none => exact h
    | some b => exact closeSend_consistent _ d h

theorem Run_consistent (cmds : List Command) :
    ∀ s : RunState, s.Consistent → (Run s cmds).Consistent := by
  induction cmds with
  | nil => intro s h; exact h
  | cons x xs ih => intro s h; exact ih _ (body_consistent s x h)

theorem fresh_consistent (h : NomadHub) : (RunState.fresh h).Consistent := by
  simp [RunState.Consistent, RunState.fresh]

/-- From a fresh hub, the queue of `c` is closed at least twice exactly when the
commands re-register `c` after an unregister that closed it. -/
theorem fresh_closed_twice (mem : Memory) (cluster : NomadCluster) (cmds : List Command)
    (c : Handle) :
    2 ≤ (Run (RunState.fresh (NewNomadHub mem cluster)) cmds).closeCalls.count c ↔
      (reRegistered c).Sublist cmds := by
  have h := ((Run_closes c cmds (RunState.fresh (NewNomadHub mem cluster))).2.1 rfl).2
  simpa [RunState.fresh] using h

/-! ## The claims about the run loop -/

/-- C1: starting from the empty connection set of `NewNomadHub`, after any finite
sequence of register and unregister commands has gone through the body of `Run`,
a handle `c` is in `connections` if and only if the sequence holds a register
command for `c` with no unregister command for `c` after it. This holds whatever
the state of the `send` channels is. -/
theorem C1_connections_after_run (mem : Memory) (cluster : NomadCluster)
    (sendClosed : Handle → Bool) (closeCalls : List Handle) (panicked : Bool)
    (cmds : List Command) (c : Handle) :
    ((Run ⟨NewNomadHub mem cluster, sendClosed, closeCalls, panicked⟩ cmds).hub.connections c).isSome
        = true ↔
      ∃ pre post, cmds = pre ++ Command.register c :: post ∧ Command.unregister c ∉ post := by
  rw [Run_connections]
  simp [NewNomadHub]

/-- C2: when `c` is in `connections`, an unregister command for `c` followed by `k`
more unregister commands for `c` removes `c` from the set, leaves every other
handle as it was, and executes `close(c.send)` exactly once: the record of close
calls grows by the single entry `c`. That one call leaves the queue closed, and it
panics exactly when the queue had been closed before. -/
theorem C2_unregister_closes_once (s : RunState) (c : Handle) (k : Nat)
    (h : (s.hub.connections c).isSome = true) :
    (Run s (Command.unregister c :: List.replicate k (Command.unregister c))).hub.connections c
        = none ∧
      (∀ d, d ≠ c →
        (Run s (Command.unregister c :: List.replicate k (Command.unregister c))).hub.connections d
          = s.hub.connections d) ∧
      (Run s (Command.unregister c :: List.replicate k (Command.unregister c))).closeCalls
        = s.closeCalls ++ [c] ∧
      (Run s (Command.unregister c :: List.replicate k (Command.unregister c))).sendClosed c
        = true ∧
      (Run s (Command.unregister c :: List.replicate k (Command.unregister c))).panicked
        = (s.panicked || s.sendClosed c) := by
  have hc := body_connections s (Command.unregister c) c
  simp only [if_true] at hc
  rw [Run_cons, Run_unregister_absent _ c k hc]
  refine ⟨hc, fun d hd => ?_, ?_, ?_, ?_⟩
  · rw [body_connections]
    simp [hd]
  · rw [body_closeCalls]
    simp [h]
  · obtain ⟨b, hb⟩ := Option.isSome_iff_exists.mp h
    simp [Run.body, hb, closeSend]
  · obtain ⟨b, hb⟩ := Option.isSome_iff_exists.mp h
    simp [Run.body, hb, closeSend]

/-- C3: when `c` is not in `connections`, the body of `Run` maps an unregister
command for `c` to the very same state: same connection set, no `close` call
added, no queue closed, no panic raised. -/
theorem C3_unregister_absent_is_noop (s : RunState) (c : Handle)
    (h : s.hub.connections c = none) :
    Run.body s (Command.unregister c) = s ∧
      (Run.body s (Command.unregister c)).hub.connections = s.hub.connections ∧
      (Run.body s (Command.unregister c)).closeCalls = s.closeCalls ∧
      (Run.body s (Command.unregister c)).sendClosed = s.sendClosed ∧
      (Run.body s (Command.unregister c)).panicked = s.panicked := by
  rw [body_unregister_absent s c h]
  exact ⟨rfl, rfl, rfl, rfl, rfl⟩

/-- C4, as amended: from a fresh hub, `Run` closes the queue of `c` at most once if
and only if the commands do not contain, in this order, register `c`, unregister
`c`, register `c`, unregister `c`; and `Run` closes an already closed queue (and
panics) if and only if they do so for some handle. -/
theorem C4_closed_at_most_once_iff (mem : Memory) (cluster : NomadCluster)
    (cmds : List Command) :
    (∀ c, (Run (RunState.fresh (NewNomadHub mem cluster)) cmds).closeCalls.count c ≤ 1 ↔
      ¬ (reRegistered c).Sublist cmds) ∧
    ((Run (RunState.fresh (NewNomadHub mem cluster)) cmds).panicked = false ↔
      ∀ c, ¬ (reRegistered c).Sublist cmds) := by
  have hcount : ∀ c,
      (Run (RunState.fresh (NewNomadHub mem cluster)) cmds).closeCalls.count c ≤ 1 ↔
        ¬ (reRegistered c).Sublist cmds := by
    intro c
    rw [← fresh_closed_twice mem cluster cmds c]
    omega
  refine ⟨hcount, ?_⟩
  have hp := (Run_consistent cmds _ (fresh_consistent (NewNomadHub mem cluster))).2
  rw [← Bool.not_eq_true, hp, not_not, List.nodup_iff_count_le_one]
  exact forall_congr' hcount

/-- C4 as stated fails: register, unregister, register, unregister of the same
handle makes `Run` execute `close` twice on its queue, the second time on a closed
channel. -/
theorem C4_counterexample :
    ¬ ((Run (RunState.fresh (NewNomadHub ⟨fun _ => GoMap.empty, fun _ => GoMap.empty⟩ ⟨0, 1⟩))
          [Command.register 7, Command.unregister 7, Command.register 7,
            Command.unregister 7]).closeCalls.count 7 ≤ 1) ∧
      (Run (RunState.fresh (NewNomadHub ⟨fun _ => GoMap.empty, fun _ => GoMap.empty⟩ ⟨0, 1⟩))
          [Command.register 7, Command.unregister 7, Command.register 7,
            Command.unregister 7]).panicked = true := by
  decide

/-! ## The handler: sending, and the handshake loop -/

theorem writesOf_append (t u : List Event) : writesOf (t ++ u) = writesOf t ++ writesOf u := by
  simp [writesOf, List.filterMap_append]

theorem connectionsBuilt_append (t u : List Event) :
    connectionsBuilt (t ++ u) = connectionsBuilt t ++ connectionsBuilt u := by
  simp [connectionsBuilt, List.filterMap_append]

/-- What `sendAction` does to each part of the state. -/
theorem sendAction_spec (socket : Socket) (s : HandlerState) (action : Action) :
    (sendAction socket s action).hub = s.hub ∧
      (sendAction socket s action).reads = s.reads ∧
      (sendAction socket s action).writes = s.writes + 1 ∧
      writesOf (sendAction socket s action).trace = writesOf s.trace ++ [action] ∧
      connectionsBuilt (sendAction socket s action).trace = connectionsBuilt s.trace := by
  unfold sendAction
  cases socket.writeJSON s.writes <;>
    simp [writesOf_append, connectionsBuilt_append, writesOf, connectionsBuilt, Event.written,
      Event.built]

/-- The loop stops at a failed read. -/
theorem loop_read_error (socket : Socket) (action : Action) (fuel : Nat) (s : HandlerState)
    (err : String) (h : socket.readJSON s.reads = .error err) :
    requireNomadRegion.loop socket action (fuel + 1) s =
      ({ s with reads := s.reads + 1, trace := s.trace ++ [.readJSON (.error err)] }, true) := by
  simp [requireNomadRegion.loop, h]

/-- After a successful read the loop logs, sends the action again exactly as
`sendAction` does, and goes on. -/
theorem loop_read_ok (socket : Socket) (action : Action) (fuel : Nat) (s : HandlerState)
    (readAction : Action) (h : socket.readJSON s.reads = .ok readAction) :
    requireNomadRegion.loop socket action (fuel + 1) s =
      requireNomadRegion.loop socket action fuel
        (sendAction socket
          { s with
            reads := s.reads + 1
            trace := s.trace ++
              [.readJSON (.ok readAction),
               .warningf ("Ignoring unhandled message: " ++ readAction.type ++ " (missing region)"),
               .debugf "Sending request for user to select a region in the UI again"] }
          action) := by
  simp only [requireNomadRegion.loop, h, sendAction]
  cases socket.writeJSON s.writes <;> rfl

/-- The loop never touches the hub and constructs no connection, however long it
runs. -/
theorem loop_frame (socket : Socket) (action : Action) (fuel : Nat) :
    ∀ s : HandlerState,
      (requireNomadRegion.loop socket action fuel s).1.hub = s.hub ∧
      connectionsBuilt (requireNomadRegion.loop socket action fuel s).1.trace =
        connectionsBuilt s.trace := by
  induction fuel with
  | zero => intro s; exact ⟨rfl, rfl⟩
  | succ fuel ih =>
    intro s
    cases hr : socket.readJSON s.reads with
    | error err =>
      rw [loop_read_error socket action fuel s err hr]
      simp [connectionsBuilt_append, connectionsBuilt, Event.built]
    | ok readAction =>
      rw [loop_read_ok socket action fuel s readAction hr]
      obtain ⟨h1, h2⟩ := ih (sendAction socket
        { s with
          reads := s.reads + 1
          trace := s.trace ++
            [.readJSON (.ok readAction),
             .warningf ("Ignoring unhandled message: " ++ readAction.type ++ " (missing region)"),
             .debugf "Sending request for user to select a region in the UI again"] }
        action)
      have hs := sendAction_spec socket
        { s with
          reads := s.reads + 1
          trace := s.trace ++
            [.readJSON (.ok readAction),
             .warningf ("Ignoring unhandled message: " ++ readAction.type ++ " (missing region)"),
             .debugf "Sending request for user to select a region in the UI again"] }
        action
      rw [h1, h2, hs.1, hs.2.2.2.2]
      simp [connectionsBuilt_append, connectionsBuilt, Event.built]

/-- When the next `n` reads succeed and the one after them fails, the loop returns
after `n` further writes of the action and `n + 1` reads. -/
theorem loop_spec (socket : Socket) (action : Action) (n : Nat) :
    ∀ (s : HandlerState) (fuel : Nat),
      (∀ i, i < n → ∃ a, socket.readJSON (s.reads + i) = .ok a) →
      (∃ e, socket.readJSON (s.reads + n) = .error e) →
      n + 1 ≤ fuel →
      (requireNomadRegion.loop socket action fuel s).2 = true ∧
      writesOf (requireNomadRegion.loop socket action fuel s).1.trace =
        writesOf s.trace ++ List.replicate n action ∧
      (requireNomadRegion.loop socket action fuel s).1.writes = s.writes + n ∧
      (requireNomadRegion.loop socket action fuel s).1.reads = s.reads + n + 1 := by
  induction n with
  | zero =>
    intro s fuel _ hfail hfuel
    obtain ⟨e, he⟩ := hfail
    obtain ⟨f, rfl⟩ : ∃ f, fuel = f + 1 := ⟨fuel - 1, by omega⟩
    rw [loop_read_error socket action f s e he]
    simp [writesOf_append, writesOf, Event.written]
  | succ n ih =>
    intro s fuel hok hfail hfuel
    obtain ⟨f, rfl⟩ : ∃ f, fuel = f + 1 := ⟨fuel - 1, by omega⟩
    obtain ⟨a, ha⟩ := hok 0 (by omega)
    rw [loop_read_ok socket action f s a ha]
    have hs := sendAction_spec socket
      { s with
        reads := s.reads + 1
        trace := s.trace ++
          [.readJSON (.ok a),
           .warningf ("Ignoring unhandled message: " ++ a.type ++ " (missing region)"),
           .debugf "Sending request for user to select a region in the UI again"] }
      action
    obtain ⟨h1, h2, h3, h4⟩ := ih _ f
      (fun i hi => by
        obtain ⟨b, hb⟩ := hok (i + 1) (by omega)
        exact ⟨b, by rw [hs.2.1]; simpa [Nat.add_assoc, Nat.add_comm 1 i] using hb⟩)
      (by
        obtain ⟨e, he⟩ := hfail
        exact ⟨e, by rw [hs.2.1]; simpa [Nat.add_assoc, Nat.add_comm 1 n] using he⟩)
      (by omega)
    rw [h2, h3, h4, hs.2.1, hs.2.2.1, hs.2.2.2.1]
    refine ⟨h1, ?_, by simp only []; omega, by simp only []; omega⟩
    simp [writesOf_append, writesOf, Event.written, List.replicate_succ]

/-- While reads succeed the loop does not return, whatever the writes do. -/
theorem loop_running (socket : Socket) (action : Action) (fuel : Nat) :
    ∀ s : HandlerState,
      (∀ i, i < fuel → ∃ a, socket.readJSON (s.reads + i) = .ok a) →
      (requireNomadRegion.loop socket action fuel s).2 = false := by
  induction fuel with
  | zero => intro s _; rfl
  | succ fuel ih =>
    intro s hok
    obtain ⟨a, ha⟩ := hok 0 (by omega)
    rw [loop_read_ok socket action fuel s a ha]
    apply ih
    intro i hi
    obtain ⟨b, hb⟩ := hok (i + 1) (by omega)
    exact ⟨b, by
      rw [(sendAction_spec socket _ action).2.1]
      simpa [Nat.add_assoc, Nat.add_comm 1 i] using hb⟩

/-- The handshake never touches the hub and constructs no connection. -/
theorem requireNomadRegion_frame (mem : Memory) (socket : Socket) (fuel : Nat)
    (s : HandlerState) :
    (requireNomadRegion mem socket fuel s).1.hub = s.hub ∧
      connectionsBuilt (requireNomadRegion mem socket fuel s).1.trace =
        connectionsBuilt s.trace := by
  unfold requireNomadRegion
  obtain ⟨h1, h2⟩ := loop_frame socket (requireNomadRegion.action mem s.hub) fuel
    (sendAction socket s (requireNomadRegion.action mem s.hub))
  have hs := sendAction_spec socket s (requireNomadRegion.action mem s.hub)
  exact ⟨by rw [h1, hs.1], by rw [h2, hs.2.2.2.2]⟩

/-! ## Go maps and strings -/

/-- The keys a `range` loop yields are the keys the index expression finds. -/
theorem GoMap.mem_keys_iff {V : Type} (m : GoMap V) (k : String) :
    k ∈ m.keys ↔ (m.get? k).isSome = true := by
  simp only [GoMap.keys, GoMap.get?, Option.isSome_map', List.find?_isSome, List.mem_map,
    decide_eq_true_eq]

/-- Adding a first key to an empty map. -/
theorem GoMap.keys_set_of_empty {V : Type} (m : GoMap V) (k : String) (v : V)
    (h : m.keys = []) : (m.set k v).keys = [k] := by
  have he : m.entries = [] := by simpa [GoMap.keys] using h
  simp [GoMap.keys, GoMap.set, he]

/-- A string that starts with `old` has `old` at position 0. -/
theorem Index_append_self (old t : List Char) : Index old (old ++ t) = some 0 := by
  cases hl : old ++ t with
  | nil =>
    have : old = [] := (List.append_eq_nil.mp hl).1
    simp [Index, this]
  | cons c cs =>
    rw [Index, ← hl, List.take_left]
    simp

/-- The test `HasPrefix` decides whether the string starts with the given string. -/
theorem HasPrefix_iff (p pre : String) : HasPrefix p pre = true ↔ ∃ s, p = pre ++ s := by
  simp only [HasPrefix, Bool.and_eq_true, decide_eq_true_eq]
  constructor
  · rintro ⟨_, h⟩
    refine ⟨⟨p.data.drop pre.data.length⟩, ?_⟩
    apply String.ext
    rw [String.data_append]
    show p.data = pre.data ++ List.drop pre.data.length p.data
    conv_lhs => rw [← List.take_append_drop pre.data.length p.data, h]
  · rintro ⟨s, rfl⟩
    rw [String.data_append]
    exact ⟨by simp, List.take_left _ _⟩

/-- The region of a path that starts with the route. -/
theorem region_of_route (s : String) : Handler.region ("/ws/nomad/" ++ s) = s := by
  have hp : HasPrefix ("/ws/nomad/" ++ s) "/ws/nomad/" = true :=
    (HasPrefix_iff _ _).mpr ⟨s, rfl⟩
  have h1 : ¬ ("/ws/nomad/" = "" ∨ (1 : Int) = 0) := by decide
  have h2 : ¬ ((1 : Int) < 0) := by decide
  have h3 : ¬ ("/ws/nomad/" = "") := by decide
  have h4 : (1 : Int).toNat = 1 := rfl
  simp only [Handler.region, hp, if_true, Replace, h1, h2, h3, if_false, h4]
  apply String.ext
  rw [String.data_append]
  simp only [Replace.first, Index_append_self]
  simp

/-! ## The claims about the handshake -/

/-- The action for a registry with exactly one region. -/
theorem action_of_single (mem : Memory) (h : NomadHub) (r : String)
    (hr : (mem.regionChannels h.channels).keys = [r]) :
    requireNomadRegion.action mem h = ⟨"SET_NOMAD_REGION", .str r⟩ := by
  simp [requireNomadRegion.action, hr]

/-- The action for a registry with no region or with several. -/
theorem action_of_other (mem : Memory) (h : NomadHub)
    (hlen : (mem.regionChannels h.channels).keys.length ≠ 1) :
    requireNomadRegion.action mem h =
      ⟨"FETCHED_NOMAD_REGIONS", .list (mem.regionChannels h.channels).keys⟩ := by
  simp [requireNomadRegion.action, hlen]

/-- C5: the action `requireNomadRegion` computes on entry is
`{SET_NOMAD_REGION, r}` when the registry holds the single region `r`, and
`{FETCHED_NOMAD_REGIONS, regions}` for every other number of regions, where
`regions` lists the known regions (the keys the registry answers for), each once. -/
theorem C5_handshake_action (mem : Memory) (h : NomadHub) :
    (∀ r, (mem.regionChannels h.channels).keys = [r] →
      requireNomadRegion.action mem h = ⟨"SET_NOMAD_REGION", .str r⟩) ∧
    ((mem.regionChannels h.channels).keys.length ≠ 1 →
      requireNomadRegion.action mem h =
        ⟨"FETCHED_NOMAD_REGIONS", .list (mem.regionChannels h.channels).keys⟩) ∧
    (mem.regionChannels h.channels).keys.Nodup ∧
    (∀ r, r ∈ (mem.regionChannels h.channels).keys ↔
      ((mem.regionChannels h.channels).get? r).isSome = true) := by
  exact ⟨fun r hr => action_of_single mem h r hr, fun hlen => action_of_other mem h hlen,
    (mem.regionChannels h.channels).nodup, fun r => GoMap.mem_keys_iff _ r⟩

/-- C5 on the two registries of the specification's scenarios, and on the empty
registry. -/
theorem C5_handshake_action_witness :
    requireNomadRegion.action (Example.memory (GoMap.empty.set "us-east" 1))
        (NewNomadHub (Example.memory (GoMap.empty.set "us-east" 1)) Example.cluster)
      = ⟨"SET_NOMAD_REGION", .str "us-east"⟩ ∧
    requireNomadRegion.action
        (Example.memory ((GoMap.empty.set "us-east" 1).set "eu-west" 2))
        (NewNomadHub (Example.memory ((GoMap.empty.set "us-east" 1).set "eu-west" 2))
          Example.cluster)
      = ⟨"FETCHED_NOMAD_REGIONS", .list ["us-east", "eu-west"]⟩ ∧
    requireNomadRegion.action (Example.memory GoMap.empty)
        (NewNomadHub (Example.memory GoMap.empty) Example.cluster)
      = ⟨"FETCHED_NOMAD_REGIONS", .list []⟩ :=
  ⟨(C5_handshake_action _ _).1 "us-east" (by decide),
   (C5_handshake_action _ _).2.1 (by decide),
   (C5_handshake_action _ _).2.1 (by decide)⟩

/-- C7: when the next `n` reads of the socket succeed and the read after them
fails, `requireNomadRegion` returns (given fuel for its `n + 1` reads) after
exactly `n + 1` calls of `WriteJSON`, each with the action computed on entry, and
`n + 1` reads; as long as only successful reads have happened it has not returned.
Nothing is assumed about the outcome of the writes. -/
theorem C7_handshake_resends_until_read_fails (mem : Memory) (socket : Socket)
    (s : HandlerState) (n : Nat)
    (hok : ∀ i, i < n → ∃ a, socket.readJSON (s.reads + i) = .ok a)
    (hfail : ∃ e, socket.readJSON (s.reads + n) = .error e) :
    (∀ fuel, n + 1 ≤ fuel →
      (requireNomadRegion mem socket fuel s).2 = true ∧
      writesOf (requireNomadRegion mem socket fuel s).1.trace =
        writesOf s.trace ++ List.replicate (n + 1) (requireNomadRegion.action mem s.hub) ∧
      (requireNomadRegion mem socket fuel s).1.writes = s.writes + (n + 1) ∧
      (requireNomadRegion mem socket fuel s).1.reads = s.reads + (n + 1)) ∧
    (∀ fuel, fuel ≤ n → (requireNomadRegion mem socket fuel s).2 = false) := by
  have hs := sendAction_spec socket s (requireNomadRegion.action mem s.hub)
  constructor
  · intro fuel hfuel
    unfold requireNomadRegion
    obtain ⟨h1, h2, h3, h4⟩ := loop_spec socket (requireNomadRegion.action mem s.hub) n
      (sendAction socket s (requireNomadRegion.action mem s.hub)) fuel
      (by rw [hs.2.1]; exact hok) (by rw [hs.2.1]; exact hfail) hfuel
    rw [h2, h3, h4, hs.2.1, hs.2.2.1, hs.2.2.2.1]
    refine ⟨h1, ?_, by omega, by omega⟩
    rw [List.append_assoc, List.replicate_succ, List.singleton_append]
  · intro fuel hfuel
    unfold requireNomadRegion
    apply loop_running
    intro i hi
    rw [hs.2.1]
    exact hok i (by omega)

/-- C7 on a socket that delivers two messages and then fails, and whose writes all
fail: three writes of the same action, and no return before the third read. -/
theorem C7_handshake_resends_witness :
    (∀ fuel, 2 + 1 ≤ fuel →
      (requireNomadRegion (Example.memory GoMap.empty) (Example.socket 2) fuel
        ⟨NewNomadHub (Example.memory GoMap.empty) Example.cluster, 0, 0, []⟩).2 = true ∧
      writesOf (requireNomadRegion (Example.memory GoMap.empty) (Example.socket 2) fuel
        ⟨NewNomadHub (Example.memory GoMap.empty) Example.cluster, 0, 0, []⟩).1.trace =
        writesOf [] ++ List.replicate (2 + 1) (requireNomadRegion.action (Example.memory GoMap.empty)
          (NewNomadHub (Example.memory GoMap.empty) Example.cluster)) ∧
      (requireNomadRegion (Example.memory GoMap.empty) (Example.socket 2) fuel
        ⟨NewNomadHub (Example.memory GoMap.empty) Example.cluster, 0, 0, []⟩).1.writes
        = 0 + (2 + 1) ∧
      (requireNomadRegion (Example.memory GoMap.empty) (Example.socket 2) fuel
        ⟨NewNomadHub (Example.memory GoMap.empty) Example.cluster, 0, 0, []⟩).1.reads
        = 0 + (2 + 1)) ∧
    (∀ fuel, fuel ≤ 2 →
      (requireNomadRegion (Example.memory GoMap.empty) (Example.socket 2) fuel
        ⟨NewNomadHub (Example.memory GoMap.empty) Example.cluster, 0, 0, []⟩).2 = false) :=
  C7_handshake_resends_until_read_fails (Example.memory GoMap.empty) (Example.socket 2)
    ⟨NewNomadHub (Example.memory GoMap.empty) Example.cluster, 0, 0, []⟩ 2
    (fun i hi => ⟨⟨"PING", .str ""⟩, by simp [Example.socket, hi]⟩)
    ⟨"EOF", by simp [Example.socket]⟩

/-- C8, as amended: the regions the handshake offers are the keys of the registry
`*h.channels` as it is when `requireNomadRegion` runs. The `regions` field that
`NewNomadHub` captured is not read: changing it changes nothing, and it agrees
with the offer exactly when the registry then enumerates the names captured at
construction. A hub built over an empty registry offers a region added to the
registry afterwards, as `SET_NOMAD_REGION`. -/
theorem C8_handshake_reads_live_registry (mem mem' : Memory) (cluster : NomadCluster) :
    (requireNomadRegion.action mem' (NewNomadHub mem cluster)).payload.regions =
        (mem'.regionChannels cluster.RegionChannels).keys ∧
    (NewNomadHub mem cluster).regions = (mem.regionChannels cluster.RegionChannels).keys ∧
    (∀ regions : List String,
      requireNomadRegion.action mem' { NewNomadHub mem cluster with regions := regions } =
        requireNomadRegion.action mem' (NewNomadHub mem cluster)) ∧
    (∀ (r : String) (v : RegionChannel),
      (mem.regionChannels cluster.RegionChannels).keys = [] →
      mem'.regionChannels cluster.RegionChannels =
        (mem.regionChannels cluster.RegionChannels).set r v →
      requireNomadRegion.action mem' (NewNomadHub mem cluster) =
        ⟨"SET_NOMAD_REGION", .str r⟩) := by
  refine ⟨?_, rfl, fun _ => rfl, fun r v hempty hset => ?_⟩
  · by_cases hlen : (mem'.regionChannels cluster.RegionChannels).keys.length = 1
    · obtain ⟨r, hr⟩ := List.length_eq_one.mp hlen
      rw [action_of_single mem' (NewNomadHub mem cluster) r hr]
      exact hr.symm
    · rw [action_of_other mem' (NewNomadHub mem cluster) hlen]
      rfl
  · apply action_of_single mem' (NewNomadHub mem cluster) r
    show (mem'.regionChannels cluster.RegionChannels).keys = [r]
    rw [hset]
    exact GoMap.keys_set_of_empty _ r v hempty

/-- C8 on the specification's scenario: a hub built over no region, and the region
`us-east` added to the registry afterwards. -/
theorem C8_handshake_reads_live_registry_witness :
    ((Example.memory GoMap.empty).regionChannels Example.cluster.RegionChannels).keys = [] ∧
    requireNomadRegion.action (Example.memory (GoMap.empty.set "us-east" 1))
        (NewNomadHub (Example.memory GoMap.empty) Example.cluster)
      = ⟨"SET_NOMAD_REGION", .str "us-east"⟩ :=
  ⟨rfl, (C8_handshake_reads_live_registry (Example.memory GoMap.empty)
    (Example.memory (GoMap.empty.set "us-east" 1)) Example.cluster).2.2.2 "us-east" 1 rfl rfl⟩

/-- C8 as stated fails: the hub built over an empty registry has the empty
snapshot, yet once `us-east` is in the registry its handshake sends
`{SET_NOMAD_REGION, us-east}` and not the empty list; the snapshot does not
determine what is sent. -/
theorem C8_counterexample :
    (NewNomadHub (Example.memory GoMap.empty) Example.cluster).regions = [] ∧
    requireNomadRegion.action (Example.memory GoMap.empty)
        (NewNomadHub (Example.memory GoMap.empty) Example.cluster)
      = ⟨"FETCHED_NOMAD_REGIONS", .list []⟩ ∧
    requireNomadRegion.action (Example.memory (GoMap.empty.set "us-east" 1))
        (NewNomadHub (Example.memory GoMap.empty) Example.cluster)
      = ⟨"SET_NOMAD_REGION", .str "us-east"⟩ ∧
    writesOf (requireNomadRegion (Example.memory (GoMap.empty.set "us-east" 1))
        (Example.socket 0) 1
        ⟨NewNomadHub (Example.memory GoMap.empty) Example.cluster, 0, 0, []⟩).1.trace
      = [⟨"SET_NOMAD_REGION", .str "us-east"⟩] ∧
    ¬ ((requireNomadRegion.action (Example.memory (GoMap.empty.set "us-east" 1))
        (NewNomadHub (Example.memory GoMap.empty) Example.cluster)).payload
      = .list (NewNomadHub (Example.memory GoMap.empty) Example.cluster).regions) := by
  decide

/-! ## The claims about the handler -/

/-- C6, as amended: after a successful upgrade, a request whose region is empty
makes `Handler` log and run `requireNomadRegion`, and no `Connection` is
constructed; a request whose region is non-empty and is not a key of the registry
`*h.channels` at the time of the request makes `Handler` log, call `sendAction`
once with `{unknownNomadRegion, ""}` and return: one envelope written, nothing
read, no `Connection` constructed. -/
theorem C6_handler_routing (unknownNomadRegion : String) (mem : Memory) (h : NomadHub)
    (r : Request) (socket : Socket) (fuel : Nat) (hup : r.upgrade = .ok socket) :
    (Handler.region r.path = "" →
      Handler unknownNomadRegion mem h r fuel =
        requireNomadRegion mem socket fuel
          { hub := h, reads := 0, writes := 0, trace := [.errorf "No region provided"] } ∧
      connectionsBuilt (Handler unknownNomadRegion mem h r fuel).1.trace = []) ∧
    (Handler.region r.path ≠ "" →
      (mem.regionChannels h.channels).get? (Handler.region r.path) = none →
      Handler unknownNomadRegion mem h r fuel =
        (sendAction socket
          { hub := h, reads := 0, writes := 0,
            trace := [.errorf ("region was not found: " ++ Handler.region r.path)] }
          ⟨unknownNomadRegion, .str ""⟩, true) ∧
      writesOf (Handler unknownNomadRegion mem h r fuel).1.trace =
        [⟨unknownNomadRegion, .str ""⟩] ∧
      (Handler unknownNomadRegion mem h r fuel).1.writes = 1 ∧
      (Handler unknownNomadRegion mem h r fuel).1.reads = 0 ∧
      connectionsBuilt (Handler unknownNomadRegion mem h r fuel).1.trace = []) := by
  constructor
  · intro hreg
    have he : Handler unknownNomadRegion mem h r fuel =
        requireNomadRegion mem socket fuel
          { hub := h, reads := 0, writes := 0, trace := [.errorf "No region provided"] } := by
      simp [Handler, hup, hreg]
    refine ⟨he, ?_⟩
    rw [he, (requireNomadRegion_frame mem socket fuel _).2]
    rfl
  · intro hreg hnone
    have he : Handler unknownNomadRegion mem h r fuel =
        (sendAction socket
          { hub := h, reads := 0, writes := 0,
            trace := [.errorf ("region was not found: " ++ Handler.region r.path)] }
          ⟨unknownNomadRegion, .str ""⟩, true) := by
      simp [Handler, hup, hreg, hnone]
    have hs := sendAction_spec socket
      { hub := h, reads := 0, writes := 0,
        trace := [.errorf ("region was not found: " ++ Handler.region r.path)] }
      ⟨unknownNomadRegion, .str ""⟩
    refine ⟨he, ?_, ?_, ?_, ?_⟩
    · rw [he]; simpa [writesOf, Event.written] using hs.2.2.2.1
    · rw [he]; simpa using hs.2.2.1
    · rw [he]; simpa using hs.2.1
    · rw [he]; simpa [connectionsBuilt, Event.built] using hs.2.2.2.2

/-- C6 on the request `/ws/nomad/mars` to a hub whose registry holds only
`us-east`, and on the request `/ws/nomad/` to the same hub. -/
theorem C6_handler_routing_witness :
    writesOf (Handler "UNKNOWN_NOMAD_REGION" (Example.memory (GoMap.empty.set "us-east" 1))
        (NewNomadHub (Example.memory (GoMap.empty.set "us-east" 1)) Example.cluster)
        ⟨"/ws/nomad/mars", .ok (Example.socket 0)⟩ 1).1.trace
      = [⟨"UNKNOWN_NOMAD_REGION", .str ""⟩] ∧
    connectionsBuilt (Handler "UNKNOWN_NOMAD_REGION"
        (Example.memory (GoMap.empty.set "us-east" 1))
        (NewNomadHub (Example.memory (GoMap.empty.set "us-east" 1)) Example.cluster)
        ⟨"/ws/nomad/mars", .ok (Example.socket 0)⟩ 1).1.trace = [] ∧
    connectionsBuilt (Handler "UNKNOWN_NOMAD_REGION"
        (Example.memory (GoMap.empty.set "us-east" 1))
        (NewNomadHub (Example.memory (GoMap.empty.set "us-east" 1)) Example.cluster)
        ⟨"/ws/nomad/", .ok (Example.socket 0)⟩ 1).1.trace = [] :=
  ⟨((C6_handler_routing "UNKNOWN_NOMAD_REGION" _ _ ⟨"/ws/nomad/mars", .ok (Example.socket 0)⟩
      (Example.socket 0) 1 rfl).2 (by decide) (by decide)).2.1,
   ((C6_handler_routing "UNKNOWN_NOMAD_REGION" _ _ ⟨"/ws/nomad/mars", .ok (Example.socket 0)⟩
      (Example.socket 0) 1 rfl).2 (by decide) (by decide)).2.2.2.2,
   ((C6_handler_routing "UNKNOWN_NOMAD_REGION" _ _ ⟨"/ws/nomad/", .ok (Example.socket 0)⟩
      (Example.socket 0) 1 rfl).1 (by decide)).2⟩

/-- C6 as stated fails: `mars` is not in the startup snapshot of a hub built over
an empty registry, but once `mars` is in the registry the request
`/ws/nomad/mars` makes `Handler` construct a `Connection` and write no envelope. -/
theorem C6_counterexample :
    Handler.region "/ws/nomad/mars" = "mars" ∧
    "mars" ∉ (NewNomadHub (Example.memory GoMap.empty) Example.cluster).regions ∧
    writesOf (Handler "UNKNOWN_NOMAD_REGION" (Example.memory (GoMap.empty.set "mars" 1))
        (NewNomadHub (Example.memory GoMap.empty) Example.cluster)
        ⟨"/ws/nomad/mars", .ok (Example.socket 0)⟩ 1).1.trace = [] ∧
    (connectionsBuilt (Handler "UNKNOWN_NOMAD_REGION"
        (Example.memory (GoMap.empty.set "mars" 1))
        (NewNomadHub (Example.memory GoMap.empty) Example.cluster)
        ⟨"/ws/nomad/mars", .ok (Example.socket 0)⟩ 1).1.trace).length = 1 := by
  decide

/-- C9: `Handler` (in each of its four branches, up to the call of `c.Handle()`),
`requireNomadRegion` and `sendAction` return the hub they were given: the
connection set and the region list are the same afterwards, for every request,
socket and amount of fuel. -/
theorem C9_handler_leaves_hub_unchanged (unknownNomadRegion : String) (mem : Memory)
    (h : NomadHub) (r : Request) (fuel : Nat) (socket : Socket) (s : HandlerState)
    (action : Action) :
    (Handler unknownNomadRegion mem h r fuel).1.hub = h ∧
    (Handler unknownNomadRegion mem h r fuel).1.hub.connections = h.connections ∧
    (Handler unknownNomadRegion mem h r fuel).1.hub.regions = h.regions ∧
    (requireNomadRegion mem socket fuel s).1.hub = s.hub ∧
    (sendAction socket s action).hub = s.hub := by
  have hH : (Handler unknownNomadRegion mem h r fuel).1.hub = h := by
    unfold Handler
    cases r.upgrade with
    | error err => rfl
    | ok sock =>
      simp only
      by_cases hreg : Handler.region r.path = ""
      · rw [if_pos hreg]
        exact (requireNomadRegion_frame mem sock fuel _).1
      · rw [if_neg hreg]
        cases (mem.regionChannels h.channels).get? (Handler.region r.path) with
        | none => exact (sendAction_spec sock _ _).1
        | some channel => rfl
  exact ⟨hH, by rw [hH], by rw [hH], (requireNomadRegion_frame mem socket fuel s).1,
    (sendAction_spec socket s action).1⟩

/-- C10: the region `Handler` extracts from the path `"/ws/nomad/" ++ s` is `s`,
also when `s` itself contains the route; from a path that does not start with
`"/ws/nomad/"` it is the empty string; and the path `"/ws/nomad/"` gives the empty
region. -/
theorem C10_region_extraction :
    (∀ s : String, Handler.region ("/ws/nomad/" ++ s) = s) ∧
    (∀ p : String, (¬ ∃ s, p = "/ws/nomad/" ++ s) → Handler.region p = "") ∧
    Handler.region "/ws/nomad/" = "" ∧
    Handler.region "/ws/nomad//ws/nomad/eu" = "/ws/nomad/eu" := by
  refine ⟨region_of_route, fun p hp => ?_, region_of_route "", region_of_route "/ws/nomad/eu"⟩
  have : ¬ (HasPrefix p "/ws/nomad/" = true) := fun h => hp ((HasPrefix_iff _ _).mp h)
  simp [Handler.region, this]

/-- C10 on a path that holds the route but does not start with it. -/
theorem C10_region_extraction_witness :
    (¬ ∃ s, "/x/ws/nomad/y" = "/ws/nomad/" ++ s) ∧ Handler.region "/x/ws/nomad/y" = "" :=
  ⟨fun h => absurd ((HasPrefix_iff "/x/ws/nomad/y" "/ws/nomad/").mpr h) (by decide),
   C10_region_extraction.2.1 "/x/ws/nomad/y"
    (fun h => absurd ((HasPrefix_iff "/x/ws/nomad/y" "/ws/nomad/").mpr h) (by decide))⟩

/-! ## The claims about the run loop on a concrete hub -/

/-- C2 on the hub in which connection 7 is registered: three unregister commands
for it close its queue once. -/
theorem C2_unregister_closes_once_witness :
    (Example.registered.hub.connections 7).isSome = true ∧
    (Run Example.registered
        (Command.unregister 7 :: List.replicate 2 (Command.unregister 7))).hub.connections 7
      = none ∧
    (Run Example.registered
        (Command.unregister 7 :: List.replicate 2 (Command.unregister 7))).closeCalls
      = Example.registered.closeCalls ++ [7] :=
  ⟨by decide,
   (C2_unregister_closes_once Example.registered 7 2 (by decide)).1,
   (C2_unregister_closes_once Example.registered 7 2 (by decide)).2.2.1⟩

/-- C3 on the hub in which only connection 7 is registered: an unregister command
for connection 3 changes nothing. -/
theorem C3_unregister_absent_is_noop_witness :
    Example.registered.hub.connections 3 = none ∧
    Run.body Example.registered (Command.unregister 3) = Example.registered :=
  ⟨rfl, (C3_unregister_absent_is_noop Example.registered 3 rfl).1⟩

end HashiUI
